import Mathlib

/-!
Verification of the latency-benchmark core of the kvasir-stream-replayer
repository: the percentile/statistics engine, the SSE arrival correlator of
`ComprehensiveLatencyBenchmark`, its stop/drain lifecycle, and the realtime
SSE subscriber's metrics window.

Conventions of the embedding:
* timestamps are epoch milliseconds, modelled as `Int`; latency values and
  percentile arithmetic are modelled as exact rationals `ℚ` (the source uses
  JS doubles; every computation the claims exercise is exact in ℚ);
* a JS value that can be absent or falsy where the code tests it
  (`undefined`, `null`, the empty string) is modelled as `Option` with
  `none` covering the falsy cases;
* an unparsable date (JS `NaN` from `new Date(...)` / `getTime()`) is
  modelled as `none : Option Int`;
* the in-place `values.sort((a, b) => a - b)` is modelled as an insertion
  sort returning the ascending list;
* the JS `Map` backing the pending-event table is modelled as an
  association list whose keys are unique (`Nodup`), which is the `Map`
  invariant;
* the randomly simulated span/dimension fields of the source (queue time,
  TLS time, cache-hit flag, ...) carry no behavioral contract (spec §9) and
  are elided from the sample record; the fields the claims exercise
  (sensorId, generatedAt, receivedAt, totalLatencyMs, percentiles) are kept.
-/

/-- Ascending insertion of one value, auxiliary to `sortAsc`. -/
def insertAsc (x : ℚ) : List ℚ → List ℚ
  | [] => [x]
  | y :: ys => if x ≤ y then x :: y :: ys else y :: insertAsc x ys

/-- Model of the JS ascending numeric sort `[...values].sort((a, b) => a - b)`. -/
def sortAsc (l : List ℚ) : List ℚ := l.foldr insertAsc []

/-- JS truncation toward zero (`Math.trunc`), used to model the `%` operator. -/
def jsTrunc (q : ℚ) : ℤ := if 0 ≤ q then ⌊q⌋ else ⌈q⌉

/-- The JS expression `q % 1`: `q` minus its truncation toward zero. -/
def jsMod1 (q : ℚ) : ℚ := q - jsTrunc q

namespace ComprehensiveLatencyBenchmark

/-- `ComprehensiveLatencyBenchmark.percentile(values, p)` from the source:
sort ascending, `index = (p / 100) * (sorted.length - 1)`,
`lower = Math.floor(index)`, `upper = Math.ceil(index)`, `weight = index % 1`;
return `sorted[sorted.length - 1]` when `upper >= sorted.length`, else
`sorted[lower] * (1 - weight) + sorted[upper] * weight`; 0 on empty input. -/
def percentile (values : List ℚ) (p : ℚ) : ℚ :=
  if values.length = 0 then 0
  else
    let sorted := sortAsc values
    let index : ℚ := p / 100 * ((sorted.length : ℚ) - 1)
    let lower : ℤ := ⌊index⌋
    let upper : ℤ := ⌈index⌉
    let weight : ℚ := jsMod1 index
    if (sorted.length : ℤ) ≤ upper then sorted.getD (sorted.length - 1) 0
    else sorted.getD lower.toNat 0 * (1 - weight) + sorted.getD upper.toNat 0 * weight

/-- The per-sample `percentiles` snapshot carried by each detailed sample. -/
structure Percentiles where
  p50 : ℚ
  p90 : ℚ
  p95 : ℚ
  p99 : ℚ

/-- One entry of the pending-event table: the origin metadata stored by the
generator under the correlation key (spans/dimensions elided, see header). -/
structure PendingEvent where
  sensorId : String
  generatedAt : ℤ

/-- The `MeasurementSubscription` notification as the SSE handler reads it:
`id` (explicit identifier; `none` for absent or empty), `sensorId`
(optional), and the embedded timestamp already passed through
`new Date(...)` (`none` = invalid date). The `value`/`propertyType` fields
are never read by the correlator and are elided. -/
structure MeasurementSubscription where
  id : Option String
  sensorId : Option String
  timestamp : Option ℤ

/-- A completed latency sample (`DetailedLatencySample` of the source with
the simulated span/dimension fields elided). -/
structure DetailedLatencySample where
  sensorId : String
  generatedAt : ℤ
  receivedAt : ℤ
  totalLatencyMs : ℤ
  percentiles : Percentiles

/-- `calculatePercentilesForSample` from the source: all-zero percentiles
when fewer than 10 samples have been collected; otherwise nearest-rank
figures `latencies[Math.floor(latencies.length * q)]` over the sorted
latencies. -/
def calculatePercentilesForSample (samples : List DetailedLatencySample) : Percentiles :=
  if samples.length < 10 then { p50 := 0, p90 := 0, p95 := 0, p99 := 0 }
  else
    let latencies := sortAsc (samples.map fun s => (s.totalLatencyMs : ℚ))
    { p50 := latencies.getD (⌊(latencies.length : ℚ) * 0.5⌋).toNat 0
      p90 := latencies.getD (⌊(latencies.length : ℚ) * 0.9⌋).toNat 0
      p95 := latencies.getD (⌊(latencies.length : ℚ) * 0.95⌋).toNat 0
      p99 := latencies.getD (⌊(latencies.length : ℚ) * 0.99⌋).toNat 0 }

/-- The percentile part of `analyzeTailLatency` (the `spanBreakdown` field,
which only concerns the simulated spans, and the p99/p50 ratio are elided;
the claims are about the percentile figures). -/
structure TailAnalysis where
  p50 : ℚ
  p90 : ℚ
  p95 : ℚ
  p99 : ℚ
  p999 : ℚ

/-- `analyzeTailLatency` from the source: sorts the collected latencies and
reports `this.percentile(latencies, p)` for p = 50, 90, 95, 99, 99.9 — with
no minimum-sample floor. -/
def analyzeTailLatency (samples : List DetailedLatencySample) : TailAnalysis :=
  let latencies := sortAsc (samples.map fun s => (s.totalLatencyMs : ℚ))
  { p50 := percentile latencies 50
    p90 := percentile latencies 90
    p95 := percentile latencies 95
    p99 := percentile latencies 99
    p999 := percentile latencies 99.9 }

/-- The benchmark state the SSE callback and the stop path touch:
`benchmarkStartTime`, the pending-event table (a JS `Map`, modelled as an
association list with unique keys), the append-only sample store, the two
live resources (`eventGenerationTimer`, `sseSubscription`, modelled as
liveness booleans), and two ghost counters recording how many times
`clearInterval` and `unsubscribe()` were invoked. -/
structure BenchState where
  benchmarkStartTime : ℤ
  maxLatencySamples : ℕ
  pendingEvents : List (String × PendingEvent)
  samples : List DetailedLatencySample
  eventGenerationTimer : Bool
  sseSubscription : Bool
  timerClearCount : ℕ
  unsubscribeCount : ℕ

/-- Keys of the pending-event table, in insertion order. -/
def pendingKeys (st : BenchState) : List String := st.pendingEvents.map Prod.fst

/-- `Map.get` on the association list. -/
def lookupKey (k : String) : List (String × PendingEvent) → Option PendingEvent
  | [] => none
  | (k', v) :: rest => if k' = k then some v else lookupKey k rest

/-- `Map.delete` on the association list (removes the first binding of `k`;
with unique keys, the only one). -/
def eraseKey (k : String) : List (String × PendingEvent) → List (String × PendingEvent)
  | [] => []
  | (k', v) :: rest => if k' = k then rest else (k', v) :: eraseKey k rest

/-- `stopEventGeneration` from the source: `clearInterval` on the generation
timer if it is set, then clear the handle; a no-op otherwise. -/
def stopEventGeneration (st : BenchState) : BenchState :=
  if st.eventGenerationTimer then
    { st with eventGenerationTimer := false, timerClearCount := st.timerClearCount + 1 }
  else st

/-- `stopBenchmark` from the source: `stopEventGeneration()`, then
`unsubscribe()` on the SSE subscription if it is set, clearing the handle. -/
def stopBenchmark (st : BenchState) : BenchState :=
  if (stopEventGeneration st).sseSubscription then
    { stopEventGeneration st with
        sseSubscription := false
        unsubscribeCount := (stopEventGeneration st).unsubscribeCount + 1 }
  else stopEventGeneration st

/-- `buildEventId(sensorId, timestamp)` from the source: `null` when
`sensorId` is falsy or the timestamp does not parse, else
`sensorId + "-" + timeMs`. -/
def buildEventId (sensorId : Option String) (timeMs : Option ℤ) : Option String :=
  match sensorId, timeMs with
  | some sid, some t => some (sid ++ "-" ++ toString t)
  | _, _ => none

/-- The correlation key of the handler:
`measurement.id || buildEventId(measurement.sensorId, measurementTimestamp)`. -/
def eventKey (m : MeasurementSubscription) : Option String :=
  match m.id with
  | some i => some i
  | none => buildEventId m.sensorId m.timestamp

/-- The backlog test of the handler, `measurementTimestamp < benchmarkStartTime`:
false for an invalid date (a `NaN` comparison is false in JS, so such an
event falls through to the key computation). -/
def isBacklog (st : BenchState) (m : MeasurementSubscription) : Bool :=
  match m.timestamp with
  | some t => decide (t < st.benchmarkStartTime)
  | none => false

/-- The SSE arrival callback installed by `startDetailedSSESubscription`,
instrumented to also return the correlation key it retired (`none` when the
notification was discarded or missed). In order: skip backlog events; compute
the key (`measurement.id || buildEventId(...)`), dropping the notification if
there is none; look the key up in the pending table (a miss is a silent
drop); on a hit build the sample (latency = receivedAt - generatedAt,
percentile snapshot over the samples collected so far), append it to the
store, delete the pending entry, and stop the benchmark early when the
sample cap is reached. `recordSample` is the state change of the hit path;
`handleArrivalK` is the whole callback. -/
def recordSample (st : BenchState) (m : MeasurementSubscription) (receivedAt : ℤ)
    (pending : PendingEvent) (eventId : String) : BenchState :=
  { st with
      samples := st.samples ++
        [{ sensorId := m.sensorId.getD ""
           generatedAt := pending.generatedAt
           receivedAt := receivedAt
           totalLatencyMs := receivedAt - pending.generatedAt
           percentiles := calculatePercentilesForSample st.samples }]
      pendingEvents := eraseKey eventId st.pendingEvents }

/-- The correlator callback; see `recordSample` above for the hit path. -/
def handleArrivalK (st : BenchState) (m : MeasurementSubscription) (receivedAt : ℤ) :
    BenchState × Option String :=
  if isBacklog st m then (st, none)
  else
    match eventKey m with
    | none => (st, none)
    | some eventId =>
      match lookupKey eventId st.pendingEvents with
      | none => (st, none)
      | some pending =>
        if (recordSample st m receivedAt pending eventId).maxLatencySamples
            ≤ (recordSample st m receivedAt pending eventId).samples.length then
          (stopBenchmark (recordSample st m receivedAt pending eventId), some eventId)
        else (recordSample st m receivedAt pending eventId, some eventId)

/-- One delivery from the SSE stream: the callback fires only while the
subscription is live (after `unsubscribe()` no further callbacks occur). -/
def deliver (st : BenchState) (a : MeasurementSubscription × ℤ) : BenchState × Option String :=
  if st.sseSubscription then handleArrivalK st a.1 a.2 else (st, none)

/-- Deliver a whole sequence of arrival notifications (each paired with its
local receipt time), collecting the retired correlation keys in order. -/
def processArrivals : BenchState → List (MeasurementSubscription × ℤ) → BenchState × List String
  | st, [] => (st, [])
  | st, a :: rest =>
    let step := deliver st a
    let rest' := processArrivals step.1 rest
    (rest'.1, step.2.toList ++ rest'.2)

/-- `waitForPendingEvents` drain loop, abstracted over the trace
`size k` = size of the pending table at the k-th poll: while the table is
nonempty and the deadline has not passed, sleep 100 ms and re-check. Each
iteration advances wall time by the 100 ms sleep, so the loop runs at most
`timeoutMs / 100` iterations; `drainLoop` counts from poll `k` with that
many iterations of fuel and returns the poll index at which the loop
exits. -/
def drainLoop (size : ℕ → ℕ) : ℕ → ℕ → ℕ
  | 0, k => k
  | fuel + 1, k => if size k = 0 then k else drainLoop size fuel (k + 1)

/-- The 100 ms poll interval of `waitForPendingEvents`. -/
def pollIntervalMs : ℕ := 100

/-- The 15 s grace period `runComprehensiveBenchmark` passes to
`waitForPendingEvents`. -/
def drainGraceMs : ℕ := 15000

/-- The poll index at which `waitForPendingEvents(timeoutMs)` returns, for a
pending-table size trace `size`. -/
def waitForPendingEvents (size : ℕ → ℕ) (timeoutMs : ℕ) : ℕ :=
  drainLoop size (timeoutMs / pollIntervalMs) 0

end ComprehensiveLatencyBenchmark

namespace RealtimeSSESubscriber

/-- `RealtimeSSESubscriber.percentile(sorted, p)` from the source, a
nearest-rank estimator: `index = Math.ceil((p / 100) * sorted.length) - 1`;
return `sorted[Math.max(0, Math.min(index, sorted.length - 1))]` (0 on an
empty list). The caller passes an already-sorted copy of the values. -/
def percentile (sorted : List ℚ) (p : ℚ) : ℚ :=
  if sorted.length = 0 then 0
  else sorted.getD (max 0 (min (⌈p / 100 * (sorted.length : ℚ)⌉ - 1)
    ((sorted.length : ℤ) - 1))).toNat 0

/-- The subscriber's `LatencyMetrics`: running count/sum, running min/max
(`none` models the initial `Infinity` / `-Infinity`, under which
`Math.min` / `Math.max` return the other argument), and the stored latency
values. -/
structure LatencyMetrics where
  count : ℕ
  sum : ℚ
  min : Option ℚ
  max : Option ℚ
  values : List ℚ

/-- The metrics as initialized by the subscriber. -/
def initialMetrics : LatencyMetrics :=
  { count := 0, sum := 0, min := none, max := none, values := [] }

/-- `handleEvent` from the source, with the notification's embedded
timestamp already parsed (`generatedAt`): skip the event when a sensor
filter is set and does not match; otherwise `latencyMs = receivedAt -
generatedAt` updates count, sum, min, max, is pushed onto `values`, and the
oldest value is shifted off when the stored values would exceed 1000.
`pushValue` is the metrics update; `handleEvent` is the whole callback. -/
def pushValue (m : LatencyMetrics) (latencyMs : ℚ) : LatencyMetrics :=
  { count := m.count + 1
    sum := m.sum + latencyMs
    min := some (match m.min with | none => latencyMs | some v => Min.min v latencyMs)
    max := some (match m.max with | none => latencyMs | some v => Max.max v latencyMs)
    values := m.values ++ [latencyMs] }

def handleEvent (sensorFilter : Option String) (m : LatencyMetrics)
    (sensorId : Option String) (generatedAt receivedAt : ℤ) : LatencyMetrics :=
  if sensorFilter.isSome ∧ sensorId ≠ sensorFilter then m
  else if 1000 < (pushValue m ((receivedAt - generatedAt : ℤ) : ℚ)).values.length then
    { pushValue m ((receivedAt - generatedAt : ℤ) : ℚ) with
        values := (pushValue m ((receivedAt - generatedAt : ℤ) : ℚ)).values.drop 1 }
  else pushValue m ((receivedAt - generatedAt : ℤ) : ℚ)

/-- The figures `printReport` prints (the event rate, which depends on wall
time, is elided). -/
structure Report where
  count : ℕ
  avg : ℚ
  min : Option ℚ
  max : Option ℚ
  p50 : ℚ
  p95 : ℚ
  p99 : ℚ

/-- `printReport` from the source: nothing to report before the first event;
otherwise average = sum / count, min/max as tracked, and p50/p95/p99 via the
nearest-rank percentile over a sorted copy of the stored values. -/
def printReport (m : LatencyMetrics) : Option Report :=
  if m.count = 0 then none
  else some
    { count := m.count
      avg := m.sum / (m.count : ℚ)
      min := m.min
      max := m.max
      p50 := percentile (sortAsc m.values) 50
      p95 := percentile (sortAsc m.values) 95
      p99 := percentile (sortAsc m.values) 99 }

/-- Run `handleEvent` (no sensor filter) over a list of events, each a
`(sensorId, generatedAt, receivedAt)` triple. -/
def processEvents (m : LatencyMetrics) : List (Option String × ℤ × ℤ) → LatencyMetrics
  | [] => m
  | e :: rest => processEvents (handleEvent none m e.1 e.2.1 e.2.2) rest

/-- The latency of each event of a trace, in order. -/
def latenciesOf (es : List (Option String × ℤ × ℤ)) : List ℚ :=
  es.map fun e => ((e.2.2 - e.2.1 : ℤ) : ℚ)

end RealtimeSSESubscriber

/-- Modelled from the spec's words (§4.5 Statistics Engine), for comparison
with the source's percentile: sort ascending; `index = p/100 * (n-1)`;
interpolate between the values at ranks `floor(index)` and `ceil(index)` by
the fractional weight. -/
def percentileSpec (values : List ℚ) (p : ℚ) : ℚ :=
  let sorted := sortAsc values
  let index : ℚ := p / 100 * ((sorted.length : ℚ) - 1)
  (1 - Int.fract index) * sorted.getD (⌊index⌋).toNat 0
    + Int.fract index * sorted.getD (⌈index⌉).toNat 0

/-- A sample fixture carrying a given latency (used by concrete instances). -/
def sampleOfLatency (l : ℤ) : ComprehensiveLatencyBenchmark.DetailedLatencySample :=
  { sensorId := "TemperatureSensor1", generatedAt := 0, receivedAt := l,
    totalLatencyMs := l, percentiles := { p50 := 0, p90 := 0, p95 := 0, p99 := 0 } }

/-- Three collected samples with latencies 10, 20, 30 ms — below the
10-sample floor. -/
def threeSamples : List ComprehensiveLatencyBenchmark.DetailedLatencySample :=
  [sampleOfLatency 10, sampleOfLatency 20, sampleOfLatency 30]

/-- A pending entry fixture for the concrete instances below. -/
def pendingW : ComprehensiveLatencyBenchmark.PendingEvent :=
  { sensorId := "TemperatureSensor1", generatedAt := 5 }

/-- A benchmark state with one in-flight key "k1" and a cap far away. -/
def stW : ComprehensiveLatencyBenchmark.BenchState :=
  { benchmarkStartTime := 0, maxLatencySamples := 100,
    pendingEvents := [("k1", pendingW)], samples := [],
    eventGenerationTimer := true, sseSubscription := true,
    timerClearCount := 0, unsubscribeCount := 0 }

/-- A benchmark state with one in-flight key "k1" and cap 1 (next sample
reaches the cap). -/
def stC : ComprehensiveLatencyBenchmark.BenchState :=
  { benchmarkStartTime := 0, maxLatencySamples := 1,
    pendingEvents := [("k1", pendingW)], samples := [],
    eventGenerationTimer := true, sseSubscription := true,
    timerClearCount := 0, unsubscribeCount := 0 }

/-- A matching arrival notification for key "k1", dated after the start. -/
def mW : ComprehensiveLatencyBenchmark.MeasurementSubscription :=
  { id := some "k1", sensorId := some "TemperatureSensor1", timestamp := some 10 }

/-- An arrival notification for key "k1" whose embedded timestamp (-5)
predates the benchmark start time (0) of `stW`. -/
def mB : ComprehensiveLatencyBenchmark.MeasurementSubscription :=
  { id := some "k1", sensorId := some "TemperatureSensor1", timestamp := some (-5) }

/-- A subscriber event trace of 1001 identical events — one more than the
1000-value window. -/
def esW : List (Option String × ℤ × ℤ) := List.replicate 1001 (some "s", 0, 5)

namespace ProofsC1

theorem insertAsc_length (x : ℚ) (l : List ℚ) :
    (insertAsc x l).length = l.length + 1 := by
  induction l with
  | nil => rfl
  | cons y ys ih =>
    by_cases h : x ≤ y <;> simp [insertAsc, h, ih]

theorem sortAsc_length (l : List ℚ) : (sortAsc l).length = l.length := by
  unfold sortAsc
  induction l with
  | nil => rfl
  | cons x xs ih =>
    simp only [List.foldr_cons, List.length_cons, insertAsc_length, ih]

theorem jsMod1_of_nonneg (q : ℚ) (h : 0 ≤ q) : jsMod1 q = Int.fract q := by
  rw [jsMod1, jsTrunc, if_pos h, Int.fract]

theorem percentile_eq_spec (values : List ℚ) (p : ℚ) (hne : values ≠ [])
    (h0 : 0 ≤ p) (h1 : p ≤ 100) :
    ComprehensiveLatencyBenchmark.percentile values p = percentileSpec values p := by
  have hlen : values.length ≠ 0 := by
    simpa [List.length_eq_zero] using hne
  have hslen : (sortAsc values).length = values.length := sortAsc_length values
  have hpos : 1 ≤ (sortAsc values).length := by omega
  set n := (sortAsc values).length with hn
  have hq1 : (0 : ℚ) ≤ (n : ℚ) - 1 := by
    have : (1 : ℚ) ≤ (n : ℚ) := by exact_mod_cast hpos
    linarith
  have hidx0 : 0 ≤ p / 100 * ((n : ℚ) - 1) := by positivity
  have hidxle : p / 100 * ((n : ℚ) - 1) ≤ (n : ℚ) - 1 := by
    have hp : p / 100 ≤ 1 := by linarith
    nlinarith
  have hup : ⌈p / 100 * ((n : ℚ) - 1)⌉ ≤ (n : ℤ) - 1 := by
    apply Int.ceil_le.mpr
    push_cast
    linarith
  have hguard : ¬ ((n : ℤ) ≤ ⌈p / 100 * ((n : ℚ) - 1)⌉) := by omega
  simp only [ComprehensiveLatencyBenchmark.percentile, percentileSpec]
  rw [if_neg hlen, ← hn, if_neg hguard, jsMod1_of_nonneg _ hidx0]
  rw [Int.fract]
  ring

theorem sortAsc_fourVec : sortAsc [10, 20, 30, 40] = [10, 20, 30, 40] := by
  norm_num [sortAsc, insertAsc]

theorem sortAsc_fiveVec : sortAsc [10, 20, 30, 40, 50] = [10, 20, 30, 40, 50] := by
  norm_num [sortAsc, insertAsc]

theorem ceil_three_halves : ⌈(3 / 2 : ℚ)⌉ = 2 := Int.ceil_eq_iff.mpr (by norm_num)

theorem ceil_five_halves : ⌈(5 / 2 : ℚ)⌉ = 3 := Int.ceil_eq_iff.mpr (by norm_num)

theorem toNat_two : (2 : ℤ).toNat = 2 := rfl

theorem toNat_four : (4 : ℤ).toNat = 4 := rfl

end ProofsC1

/-- C1 counterexample: the realtime SSE subscriber's percentile — one of the
percentile implementations the program uses to report latency statistics
(`printReport`) — is nearest-rank, not linear interpolation: on the sorted
values [10, 20, 30, 40] at rank 50 it returns 20, not the 25 required by the
claimed interpolation rule. -/
theorem subscriber_percentile_not_interpolated :
    RealtimeSSESubscriber.percentile (sortAsc [10, 20, 30, 40]) 50 = 20 ∧
    RealtimeSSESubscriber.percentile (sortAsc [10, 20, 30, 40]) 50 ≠ 25 := by
  constructor <;>
    · simp only [RealtimeSSESubscriber.percentile, ProofsC1.sortAsc_fourVec]
      norm_num [ProofsC1.toNat_two]

/-- C1 (amended): the `ComprehensiveLatencyBenchmark` percentile sorts the
values ascending and returns the linear interpolation between the values at
ranks floor(index) and ceil(index) with index = p/100 * (n-1) (it agrees with
the spec's continuous-rank estimator on every nonempty input for p in
[0, 100]) and meets all four test vectors; the realtime SSE subscriber's
percentile is instead a nearest-rank estimator that agrees on the three
odd-length test vectors but returns 20, not 25, on ([10,20,30,40], 50). -/
theorem percentile_linear_interpolation :
    (∀ (values : List ℚ) (p : ℚ), values ≠ [] → 0 ≤ p → p ≤ 100 →
      ComprehensiveLatencyBenchmark.percentile values p = percentileSpec values p) ∧
    ComprehensiveLatencyBenchmark.percentile [10, 20, 30, 40, 50] 50 = 30 ∧
    ComprehensiveLatencyBenchmark.percentile [10, 20, 30, 40, 50] 100 = 50 ∧
    ComprehensiveLatencyBenchmark.percentile [10, 20, 30, 40, 50] 0 = 10 ∧
    ComprehensiveLatencyBenchmark.percentile [10, 20, 30, 40] 50 = 25 ∧
    RealtimeSSESubscriber.percentile (sortAsc [10, 20, 30, 40, 50]) 50 = 30 ∧
    RealtimeSSESubscriber.percentile (sortAsc [10, 20, 30, 40, 50]) 100 = 50 ∧
    RealtimeSSESubscriber.percentile (sortAsc [10, 20, 30, 40, 50]) 0 = 10 := by
  refine ⟨ProofsC1.percentile_eq_spec, ?_, ?_, ?_, ?_, ?_, ?_, ?_⟩
  · simp only [ComprehensiveLatencyBenchmark.percentile, ProofsC1.sortAsc_fiveVec]
    norm_num [jsMod1, jsTrunc, ProofsC1.toNat_two, ProofsC1.toNat_four]
  · simp only [ComprehensiveLatencyBenchmark.percentile, ProofsC1.sortAsc_fiveVec]
    norm_num [jsMod1, jsTrunc, ProofsC1.toNat_two, ProofsC1.toNat_four]
  · simp only [ComprehensiveLatencyBenchmark.percentile, ProofsC1.sortAsc_fiveVec]
    norm_num [jsMod1, jsTrunc, ProofsC1.toNat_two, ProofsC1.toNat_four]
  · simp only [ComprehensiveLatencyBenchmark.percentile, ProofsC1.sortAsc_fourVec]
    norm_num [jsMod1, jsTrunc, ProofsC1.ceil_three_halves, ProofsC1.toNat_two,
      ProofsC1.toNat_four]
  · simp only [RealtimeSSESubscriber.percentile, ProofsC1.sortAsc_fiveVec]
    norm_num [ProofsC1.ceil_five_halves, ProofsC1.toNat_two, ProofsC1.toNat_four]
  · simp only [RealtimeSSESubscriber.percentile, ProofsC1.sortAsc_fiveVec]
    norm_num [ProofsC1.toNat_two, ProofsC1.toNat_four]
  · simp only [RealtimeSSESubscriber.percentile, ProofsC1.sortAsc_fiveVec]
    norm_num [ProofsC1.toNat_two, ProofsC1.toNat_four]

/-- C3: an arrival notification whose embedded timestamp is strictly earlier
than the benchmark's recorded start time is discarded before any correlation
is attempted: the handler leaves the state unchanged (no sample is appended,
no pending entry is touched) and retires no key — whatever the pending
table contains. -/
theorem backlog_discarded (st : ComprehensiveLatencyBenchmark.BenchState)
    (m : ComprehensiveLatencyBenchmark.MeasurementSubscription)
    (receivedAt t : ℤ) (ht : m.timestamp = some t)
    (hlt : t < st.benchmarkStartTime) :
    ComprehensiveLatencyBenchmark.handleArrivalK st m receivedAt = (st, none) := by
  unfold ComprehensiveLatencyBenchmark.handleArrivalK
  rw [if_pos]
  unfold ComprehensiveLatencyBenchmark.isBacklog
  rw [ht]
  simpa using hlt

/-- C3 witness: with one pending entry under key "k1" and a matching arrival
dated -5 (before the start time 0), the handler drops the notification and
changes nothing. -/
theorem backlog_discarded_witness :
    ComprehensiveLatencyBenchmark.handleArrivalK stW mB 7 = (stW, none) :=
  backlog_discarded stW mB 7 (-5) rfl (by decide)

/-- C9: the correlation key is the notification's explicit identifier when
one is present; otherwise it is derived deterministically from the pair
(sensorId, embedded timestamp) as `sensorId + "-" + timeMs`; and a
notification carrying neither an explicit identifier nor both a sensorId
and a parsable timestamp is discarded by the handler without producing a
sample (the state is unchanged and no key is retired) and without raising
an error (the handler is a total function). -/
theorem correlation_key_derivation :
    (∀ (m : ComprehensiveLatencyBenchmark.MeasurementSubscription) (i : String),
      m.id = some i → ComprehensiveLatencyBenchmark.eventKey m = some i) ∧
    (∀ m : ComprehensiveLatencyBenchmark.MeasurementSubscription, m.id = none →
      ComprehensiveLatencyBenchmark.eventKey m
        = ComprehensiveLatencyBenchmark.buildEventId m.sensorId m.timestamp) ∧
    (∀ (sid : String) (t : ℤ),
      ComprehensiveLatencyBenchmark.buildEventId (some sid) (some t)
        = some (sid ++ "-" ++ toString t)) ∧
    (∀ (st : ComprehensiveLatencyBenchmark.BenchState)
      (m : ComprehensiveLatencyBenchmark.MeasurementSubscription) (receivedAt : ℤ),
      m.id = none → (m.sensorId = none ∨ m.timestamp = none) →
      ComprehensiveLatencyBenchmark.handleArrivalK st m receivedAt = (st, none)) := by
  refine ⟨?_, ?_, ?_, ?_⟩
  · intro m i h
    simp [ComprehensiveLatencyBenchmark.eventKey, h]
  · intro m h
    simp [ComprehensiveLatencyBenchmark.eventKey, h]
  · intro sid t
    rfl
  · intro st m receivedAt hid hmal
    unfold ComprehensiveLatencyBenchmark.handleArrivalK
    have hkey : ComprehensiveLatencyBenchmark.eventKey m = none := by
      rcases hmal with h | h
      · cases ht : m.timestamp <;>
          simp [ComprehensiveLatencyBenchmark.eventKey, hid,
            ComprehensiveLatencyBenchmark.buildEventId, h, ht]
      · cases hs : m.sensorId <;>
          simp [ComprehensiveLatencyBenchmark.eventKey, hid,
            ComprehensiveLatencyBenchmark.buildEventId, h, hs]
    rw [hkey]
    split <;> rfl

/-- C4: the code does NOT clamp or flag negative latencies. In the realtime
SSE subscriber, an arrival whose embedded timestamp (1000 ms) is ahead of
the local clock at receipt (900 ms) — clock skew — yields latencyMs = -100,
which enters the stored values, the running sum and the running min
unmodified, and thus corrupts every aggregate the report surfaces. -/
theorem negative_latency_unclamped :
    (RealtimeSSESubscriber.handleEvent none RealtimeSSESubscriber.initialMetrics
        (some "TemperatureSensor1") 1000 900).values = [(-100 : ℚ)] ∧
    (RealtimeSSESubscriber.handleEvent none RealtimeSSESubscriber.initialMetrics
        (some "TemperatureSensor1") 1000 900).sum = -100 ∧
    (RealtimeSSESubscriber.handleEvent none RealtimeSSESubscriber.initialMetrics
        (some "TemperatureSensor1") 1000 900).min = some (-100) ∧
    ((-100 : ℚ) < 0) := by
  refine ⟨?_, ?_, ?_, by norm_num⟩ <;>
    norm_num [RealtimeSSESubscriber.handleEvent, RealtimeSSESubscriber.pushValue,
      RealtimeSSESubscriber.initialMetrics]

namespace ProofsC5

theorem sortAsc_threeVec : sortAsc [10, 20, 30] = [10, 20, 30] := by
  norm_num [sortAsc, insertAsc]

theorem threeSamples_latencies :
    threeSamples.map (fun s => (s.totalLatencyMs : ℚ)) = [10, 20, 30] := by
  norm_num [threeSamples, sampleOfLatency]

theorem tail_p50_three :
    (ComprehensiveLatencyBenchmark.analyzeTailLatency threeSamples).p50 = 20 := by
  simp only [ComprehensiveLatencyBenchmark.analyzeTailLatency, threeSamples_latencies,
    sortAsc_threeVec]
  simp only [ComprehensiveLatencyBenchmark.percentile, sortAsc_threeVec]
  norm_num [jsMod1, jsTrunc]

end ProofsC5

/-- C5 counterexample: percentiles ARE computed over fewer than 10 samples
without the zero floor — `analyzeTailLatency`, whose figures the run's
report prints, returns p50 = 20 (not 0) over the 3 collected samples with
latencies 10, 20, 30 ms. -/
theorem tail_analysis_no_floor_cex :
    threeSamples.length = 3 ∧
    (ComprehensiveLatencyBenchmark.analyzeTailLatency threeSamples).p50 = 20 ∧
    (ComprehensiveLatencyBenchmark.analyzeTailLatency threeSamples).p50 ≠ 0 := by
  refine ⟨rfl, ProofsC5.tail_p50_three, ?_⟩
  rw [ProofsC5.tail_p50_three]
  norm_num

/-- C5 (amended): the 10-sample zero floor applies to the per-sample
percentile snapshots (`calculatePercentilesForSample`): whenever fewer than
10 samples have been collected it returns all-zero p50/p90/p95/p99 rather
than raising. The tail-latency analysis the run reports
(`analyzeTailLatency`) applies no such floor: over 3 samples (latencies
10, 20, 30 ms) it reports the actual p50 = 20. -/
theorem percentile_floor_only_per_sample :
    (∀ samples : List ComprehensiveLatencyBenchmark.DetailedLatencySample,
      samples.length < 10 →
      ComprehensiveLatencyBenchmark.calculatePercentilesForSample samples
        = { p50 := 0, p90 := 0, p95 := 0, p99 := 0 }) ∧
    threeSamples.length < 10 ∧
    (ComprehensiveLatencyBenchmark.analyzeTailLatency threeSamples).p50 = 20 := by
  refine ⟨?_, by norm_num [threeSamples], ProofsC5.tail_p50_three⟩
  intro samples h
  rw [ComprehensiveLatencyBenchmark.calculatePercentilesForSample, if_pos h]

namespace ProofsC8

theorem drainLoop_le (size : ℕ → ℕ) : ∀ (fuel k : ℕ),
    ComprehensiveLatencyBenchmark.drainLoop size fuel k ≤ k + fuel := by
  intro fuel
  induction fuel with
  | zero => intro k; simp [ComprehensiveLatencyBenchmark.drainLoop]
  | succ n ih =>
    intro k
    simp only [ComprehensiveLatencyBenchmark.drainLoop]
    split
    · omega
    · have := ih (k + 1)
      omega

theorem drainLoop_exit (size : ℕ → ℕ) : ∀ (fuel k : ℕ),
    size (ComprehensiveLatencyBenchmark.drainLoop size fuel k) = 0 ∨
      ComprehensiveLatencyBenchmark.drainLoop size fuel k = k + fuel := by
  intro fuel
  induction fuel with
  | zero => intro k; right; rfl
  | succ n ih =>
    intro k
    simp only [ComprehensiveLatencyBenchmark.drainLoop]
    split
    · left; assumption
    · rcases ih (k + 1) with h | h
      · left; exact h
      · right; omega

theorem drainLoop_first (size : ℕ → ℕ) : ∀ (fuel k i : ℕ), k ≤ i →
    i < ComprehensiveLatencyBenchmark.drainLoop size fuel k → size i ≠ 0 := by
  intro fuel
  induction fuel with
  | zero =>
    intro k i hk hi
    simp only [ComprehensiveLatencyBenchmark.drainLoop] at hi
    omega
  | succ n ih =>
    intro k i hk hi
    simp only [ComprehensiveLatencyBenchmark.drainLoop] at hi
    by_cases h0 : size k = 0
    · rw [if_pos h0] at hi
      omega
    · rw [if_neg h0] at hi
      rcases Nat.eq_or_lt_of_le hk with rfl | hlt
      · exact h0
      · exact ih (k + 1) i hlt hi

end ProofsC8

/-- C8: for every pending-table size trace the drain phase terminates within
the fixed grace period: polling every 100 ms, `waitForPendingEvents(15000)`
returns after at most 15 s of waiting; it runs to the first poll at which
the table is empty (every earlier poll saw a nonempty table), or exhausts
the 150 polls of the deadline — the orchestrator never waits beyond the
grace period. -/
theorem drain_bounded (size : ℕ → ℕ) :
    ComprehensiveLatencyBenchmark.pollIntervalMs *
        ComprehensiveLatencyBenchmark.waitForPendingEvents size
          ComprehensiveLatencyBenchmark.drainGraceMs
      ≤ ComprehensiveLatencyBenchmark.drainGraceMs ∧
    (size (ComprehensiveLatencyBenchmark.waitForPendingEvents size
        ComprehensiveLatencyBenchmark.drainGraceMs) = 0 ∨
      ComprehensiveLatencyBenchmark.waitForPendingEvents size
          ComprehensiveLatencyBenchmark.drainGraceMs
        = ComprehensiveLatencyBenchmark.drainGraceMs /
            ComprehensiveLatencyBenchmark.pollIntervalMs) ∧
    (∀ i < ComprehensiveLatencyBenchmark.waitForPendingEvents size
        ComprehensiveLatencyBenchmark.drainGraceMs, size i ≠ 0) := by
  refine ⟨?_, ?_, ?_⟩
  · have h := ProofsC8.drainLoop_le size
      (ComprehensiveLatencyBenchmark.drainGraceMs /
        ComprehensiveLatencyBenchmark.pollIntervalMs) 0
    simp only [ComprehensiveLatencyBenchmark.waitForPendingEvents,
      ComprehensiveLatencyBenchmark.drainGraceMs,
      ComprehensiveLatencyBenchmark.pollIntervalMs] at h ⊢
    omega
  · have h := ProofsC8.drainLoop_exit size
      (ComprehensiveLatencyBenchmark.drainGraceMs /
        ComprehensiveLatencyBenchmark.pollIntervalMs) 0
    simpa [ComprehensiveLatencyBenchmark.waitForPendingEvents] using h
  · intro i hi
    exact ProofsC8.drainLoop_first size
      (ComprehensiveLatencyBenchmark.drainGraceMs /
        ComprehensiveLatencyBenchmark.pollIntervalMs) 0 i (Nat.zero_le i) hi

namespace ProofsBench

open ComprehensiveLatencyBenchmark

theorem stopEventGeneration_pendingEvents (st : BenchState) :
    (stopEventGeneration st).pendingEvents = st.pendingEvents := by
  unfold stopEventGeneration; split <;> rfl

theorem stopEventGeneration_samples (st : BenchState) :
    (stopEventGeneration st).samples = st.samples := by
  unfold stopEventGeneration; split <;> rfl

theorem stopEventGeneration_sse (st : BenchState) :
    (stopEventGeneration st).sseSubscription = st.sseSubscription := by
  unfold stopEventGeneration; split <;> rfl

theorem stopEventGeneration_max (st : BenchState) :
    (stopEventGeneration st).maxLatencySamples = st.maxLatencySamples := by
  unfold stopEventGeneration; split <;> rfl

theorem stopEventGeneration_timer (st : BenchState) :
    (stopEventGeneration st).eventGenerationTimer = false := by
  unfold stopEventGeneration
  split
  · rfl
  · rename_i h
    simpa using h

theorem stopBenchmark_pendingEvents (st : BenchState) :
    (stopBenchmark st).pendingEvents = st.pendingEvents := by
  unfold stopBenchmark; split <;> simp [stopEventGeneration_pendingEvents]

theorem stopBenchmark_samples (st : BenchState) :
    (stopBenchmark st).samples = st.samples := by
  unfold stopBenchmark; split <;> simp [stopEventGeneration_samples]

theorem stopBenchmark_max (st : BenchState) :
    (stopBenchmark st).maxLatencySamples = st.maxLatencySamples := by
  unfold stopBenchmark; split <;> simp [stopEventGeneration_max]

theorem stopBenchmark_timer (st : BenchState) :
    (stopBenchmark st).eventGenerationTimer = false := by
  unfold stopBenchmark; split <;> simp [stopEventGeneration_timer]

theorem stopBenchmark_sse (st : BenchState) :
    (stopBenchmark st).sseSubscription = false := by
  unfold stopBenchmark
  split
  · rfl
  · rename_i h
    rw [stopEventGeneration_sse] at h ⊢
    simpa using h

theorem lookupKey_mem (k : String) (pe : List (String × PendingEvent))
    (v : PendingEvent) (h : lookupKey k pe = some v) : k ∈ pe.map Prod.fst := by
  induction pe with
  | nil => simp [lookupKey] at h
  | cons hd tl ih =>
    rw [lookupKey] at h
    by_cases he : hd.1 = k
    · simp [he]
    · rw [if_neg he] at h
      simp [ih h]

theorem eraseKey_subset (k k' : String) (pe : List (String × PendingEvent))
    (h : k' ∈ (eraseKey k pe).map Prod.fst) : k' ∈ pe.map Prod.fst := by
  induction pe with
  | nil => simp [eraseKey] at h
  | cons hd tl ih =>
    rw [eraseKey] at h
    by_cases he : hd.1 = k
    · rw [if_pos he] at h
      simp [h]
    · rw [if_neg he] at h
      simp only [List.map_cons, List.mem_cons] at h ⊢
      rcases h with h | h
      · exact Or.inl h
      · exact Or.inr (ih h)

theorem eraseKey_nodup (k : String) (pe : List (String × PendingEvent))
    (h : (pe.map Prod.fst).Nodup) : ((eraseKey k pe).map Prod.fst).Nodup := by
  induction pe with
  | nil => simp [eraseKey]
  | cons hd tl ih =>
    rw [eraseKey]
    simp only [List.map_cons, List.nodup_cons] at h
    by_cases he : hd.1 = k
    · rw [if_pos he]
      exact h.2
    · rw [if_neg he]
      simp only [List.map_cons, List.nodup_cons]
      exact ⟨fun hm => h.1 (eraseKey_subset k hd.1 tl hm), ih h.2⟩

theorem eraseKey_not_mem (k : String) (pe : List (String × PendingEvent))
    (h : (pe.map Prod.fst).Nodup) : k ∉ (eraseKey k pe).map Prod.fst := by
  induction pe with
  | nil => simp [eraseKey]
  | cons hd tl ih =>
    rw [eraseKey]
    simp only [List.map_cons, List.nodup_cons] at h
    by_cases he : hd.1 = k
    · rw [if_pos he]
      rw [he] at h
      exact h.1
    · rw [if_neg he]
      simp only [List.map_cons, List.mem_cons]
      rintro (rfl | hm)
      · exact he rfl
      · exact ih h.2 hm

/-- Case description of the instrumented arrival handler: either the
notification is discarded/missed and nothing changes, or exactly one key is
retired: it was among the pending keys, its entry is erased, exactly one
sample is appended, the cap is unchanged, and if the cap is thereby reached
the timer and the subscription are both shut down. -/
theorem handleArrivalK_spec (st : BenchState) (m : MeasurementSubscription)
    (r : ℤ) :
    handleArrivalK st m r = (st, none) ∨
    ∃ k s, (handleArrivalK st m r).2 = some k ∧
      k ∈ pendingKeys st ∧
      (handleArrivalK st m r).1.pendingEvents = eraseKey k st.pendingEvents ∧
      (handleArrivalK st m r).1.samples = st.samples ++ [s] ∧
      (handleArrivalK st m r).1.maxLatencySamples = st.maxLatencySamples ∧
      (st.maxLatencySamples ≤ st.samples.length + 1 →
        (handleArrivalK st m r).1.eventGenerationTimer = false ∧
        (handleArrivalK st m r).1.sseSubscription = false) ∧
      (¬ st.maxLatencySamples ≤ st.samples.length + 1 →
        (handleArrivalK st m r).1.eventGenerationTimer = st.eventGenerationTimer ∧
        (handleArrivalK st m r).1.sseSubscription = st.sseSubscription) := by
  unfold handleArrivalK
  split
  · exact Or.inl rfl
  split
  · exact Or.inl rfl
  rename_i eid hkey
  split
  · exact Or.inl rfl
  rename_i p hp
  right
  have hmax : (recordSample st m r p eid).maxLatencySamples = st.maxLatencySamples := rfl
  have hsam : (recordSample st m r p eid).samples.length = st.samples.length + 1 := by
    simp [recordSample]
  split
  · rename_i hcap
    rw [hmax, hsam] at hcap
    exact ⟨eid,
      { sensorId := m.sensorId.getD ""
        generatedAt := p.generatedAt
        receivedAt := r
        totalLatencyMs := r - p.generatedAt
        percentiles := calculatePercentilesForSample st.samples },
      rfl,
      lookupKey_mem eid st.pendingEvents p hp,
      by rw [stopBenchmark_pendingEvents]; rfl,
      by rw [stopBenchmark_samples]; rfl,
      by rw [stopBenchmark_max]; rfl,
      fun _ => ⟨stopBenchmark_timer _, stopBenchmark_sse _⟩,
      fun hn => absurd hcap hn⟩
  · rename_i hcap
    rw [hmax, hsam] at hcap
    exact ⟨eid,
      { sensorId := m.sensorId.getD ""
        generatedAt := p.generatedAt
        receivedAt := r
        totalLatencyMs := r - p.generatedAt
        percentiles := calculatePercentilesForSample st.samples },
      rfl,
      lookupKey_mem eid st.pendingEvents p hp,
      rfl, rfl, rfl,
      fun hle => absurd hle hcap,
      fun _ => ⟨rfl, rfl⟩⟩

theorem handleArrivalK_keys_subset (st : BenchState) (m : MeasurementSubscription)
    (r : ℤ) (k' : String) (h : k' ∈ pendingKeys (handleArrivalK st m r).1) :
    k' ∈ pendingKeys st := by
  rcases handleArrivalK_spec st m r with heq | ⟨k, s, _, _, hpe, _⟩
  · rwa [heq] at h
  · rw [pendingKeys, hpe] at h
    exact eraseKey_subset k k' st.pendingEvents h

theorem handleArrivalK_nodup (st : BenchState) (m : MeasurementSubscription)
    (r : ℤ) (h : (pendingKeys st).Nodup) :
    (pendingKeys (handleArrivalK st m r).1).Nodup := by
  rcases handleArrivalK_spec st m r with heq | ⟨k, s, _, _, hpe, _⟩
  · rwa [heq]
  · rw [pendingKeys, hpe]
    exact eraseKey_nodup k st.pendingEvents h

theorem handleArrivalK_consumed_mem (st : BenchState) (m : MeasurementSubscription)
    (r : ℤ) (k : String) (h : (handleArrivalK st m r).2 = some k) :
    k ∈ pendingKeys st := by
  rcases handleArrivalK_spec st m r with heq | ⟨k0, s, hc, hmem, _⟩
  · rw [heq] at h
    simp at h
  · rw [hc] at h
    have h' : k0 = k := by injection h
    rw [h'] at hmem
    exact hmem

theorem handleArrivalK_consumed_gone (st : BenchState) (m : MeasurementSubscription)
    (r : ℤ) (k : String) (hnd : (pendingKeys st).Nodup)
    (h : (handleArrivalK st m r).2 = some k) :
    k ∉ pendingKeys (handleArrivalK st m r).1 := by
  rcases handleArrivalK_spec st m r with heq | ⟨k0, s, hc, _, hpe, _⟩
  · rw [heq] at h
    simp at h
  · rw [hc] at h
    have h' : k0 = k := by injection h
    rw [h'] at hpe
    rw [pendingKeys, hpe]
    exact eraseKey_not_mem k st.pendingEvents hnd

theorem handleArrivalK_samples_len (st : BenchState) (m : MeasurementSubscription)
    (r : ℤ) :
    (handleArrivalK st m r).1.samples.length
      = st.samples.length + (handleArrivalK st m r).2.toList.length := by
  rcases handleArrivalK_spec st m r with heq | ⟨k, s, hc, _, _, hsam, _⟩
  · rw [heq]
    simp
  · rw [hc, hsam]
    simp

theorem handleArrivalK_samples_ext (st : BenchState) (m : MeasurementSubscription)
    (r : ℤ) : ∃ t, (handleArrivalK st m r).1.samples = st.samples ++ t := by
  rcases handleArrivalK_spec st m r with heq | ⟨k, s, _, _, _, hsam, _⟩
  · exact ⟨[], by rw [heq]; simp⟩
  · exact ⟨[s], hsam⟩

theorem deliver_keys_subset (st : BenchState) (a : MeasurementSubscription × ℤ)
    (k' : String) (h : k' ∈ pendingKeys (deliver st a).1) : k' ∈ pendingKeys st := by
  unfold deliver at h
  split at h
  · exact handleArrivalK_keys_subset st a.1 a.2 k' h
  · exact h

theorem deliver_nodup (st : BenchState) (a : MeasurementSubscription × ℤ)
    (h : (pendingKeys st).Nodup) : (pendingKeys (deliver st a).1).Nodup := by
  unfold deliver
  split
  · exact handleArrivalK_nodup st a.1 a.2 h
  · exact h

theorem deliver_consumed_mem (st : BenchState) (a : MeasurementSubscription × ℤ)
    (k : String) (h : (deliver st a).2 = some k) : k ∈ pendingKeys st := by
  unfold deliver at h
  split at h
  · exact handleArrivalK_consumed_mem st a.1 a.2 k h
  · simp at h

theorem deliver_consumed_gone (st : BenchState) (a : MeasurementSubscription × ℤ)
    (k : String) (hnd : (pendingKeys st).Nodup) (h : (deliver st a).2 = some k) :
    k ∉ pendingKeys (deliver st a).1 := by
  unfold deliver at h ⊢
  split at h
  · rename_i hs
    rw [if_pos hs]
    exact handleArrivalK_consumed_gone st a.1 a.2 k hnd h
  · simp at h

theorem deliver_samples_len (st : BenchState) (a : MeasurementSubscription × ℤ) :
    (deliver st a).1.samples.length
      = st.samples.length + (deliver st a).2.toList.length := by
  unfold deliver
  split
  · exact handleArrivalK_samples_len st a.1 a.2
  · simp

theorem deliver_samples_ext (st : BenchState) (a : MeasurementSubscription × ℤ) :
    ∃ t, (deliver st a).1.samples = st.samples ++ t := by
  unfold deliver
  split
  · exact handleArrivalK_samples_ext st a.1 a.2
  · exact ⟨[], by simp⟩

theorem processArrivals_not_mem (as : List (MeasurementSubscription × ℤ)) :
    ∀ (st : BenchState) (k : String), k ∉ pendingKeys st →
      k ∉ (processArrivals st as).2 := by
  induction as with
  | nil => intro st k _; simp [processArrivals]
  | cons a rest ih =>
    intro st k hk
    simp only [processArrivals, List.mem_append]
    rintro (h | h)
    · rcases hc : (deliver st a).2 with _ | k0
      · rw [hc] at h
        simp at h
      · rw [hc] at h
        simp only [Option.toList_some, List.mem_singleton] at h
        subst h
        exact hk (deliver_consumed_mem st a k hc)
    · exact ih (deliver st a).1 k
        (fun hm => hk (deliver_keys_subset st a k hm)) h

theorem processArrivals_count (as : List (MeasurementSubscription × ℤ)) :
    ∀ (st : BenchState) (k : String), (pendingKeys st).Nodup →
      (processArrivals st as).2.count k ≤ 1 := by
  induction as with
  | nil => intro st k _; simp [processArrivals]
  | cons a rest ih =>
    intro st k hnd
    simp only [processArrivals, List.count_append]
    rcases hc : (deliver st a).2 with _ | k0
    · simpa using ih (deliver st a).1 k (deliver_nodup st a hnd)
    · by_cases hk : k0 = k
      · subst hk
        have hgone : k0 ∉ pendingKeys (deliver st a).1 :=
          deliver_consumed_gone st a k0 hnd hc
        have hrest : k0 ∉ (processArrivals (deliver st a).1 rest).2 :=
          processArrivals_not_mem rest (deliver st a).1 k0 hgone
        have : (processArrivals (deliver st a).1 rest).2.count k0 = 0 :=
          List.count_eq_zero.mpr hrest
        simp [this]
      · have h1 : (Option.some k0).toList.count k = 0 := by
          simp only [Option.toList_some]
          exact List.count_eq_zero.mpr (by simp [Ne.symm]; exact fun h => hk h.symm)
        rw [h1]
        simpa using ih (deliver st a).1 k (deliver_nodup st a hnd)

theorem processArrivals_samples_len (as : List (MeasurementSubscription × ℤ)) :
    ∀ st : BenchState, (processArrivals st as).1.samples.length
      = st.samples.length + (processArrivals st as).2.length := by
  induction as with
  | nil => intro st; simp [processArrivals]
  | cons a rest ih =>
    intro st
    simp only [processArrivals, List.length_append]
    have h1 := deliver_samples_len st a
    have h2 := ih (deliver st a).1
    omega

theorem processArrivals_samples_ext (as : List (MeasurementSubscription × ℤ)) :
    ∀ st : BenchState, ∃ t, (processArrivals st as).1.samples = st.samples ++ t := by
  induction as with
  | nil => intro st; exact ⟨[], by simp [processArrivals]⟩
  | cons a rest ih =>
    intro st
    obtain ⟨t1, h1⟩ := deliver_samples_ext st a
    obtain ⟨t2, h2⟩ := ih (deliver st a).1
    exact ⟨t1 ++ t2, by simp only [processArrivals]; rw [h2, h1, List.append_assoc]⟩

theorem processArrivals_unsubscribed (as : List (MeasurementSubscription × ℤ))
    (st : BenchState) (h : st.sseSubscription = false) :
    processArrivals st as = (st, []) := by
  induction as with
  | nil => rfl
  | cons a rest ih =>
    have hd : deliver st a = (st, none) := by
      unfold deliver
      rw [h]
      simp
    simp only [processArrivals, hd, ih]
    rfl

theorem stopEventGeneration_of_timer_off (st : BenchState)
    (h : st.eventGenerationTimer = false) : stopEventGeneration st = st := by
  unfold stopEventGeneration
  rw [h]
  simp

theorem stopBenchmark_of_stopped (s : BenchState) (h1 : s.eventGenerationTimer = false)
    (h2 : s.sseSubscription = false) : stopBenchmark s = s := by
  unfold stopBenchmark
  rw [stopEventGeneration_of_timer_off s h1, h2]
  simp

theorem stopBenchmark_stopBenchmark (st : BenchState) :
    stopBenchmark (stopBenchmark st) = stopBenchmark st :=
  stopBenchmark_of_stopped _ (stopBenchmark_timer st) (stopBenchmark_sse st)

end ProofsBench

/-- C2: at-most-once correlation. Starting from any benchmark state whose
pending-event table has unique keys (the JS `Map` invariant) and for any
sequence of delivered arrival notifications, each correlation key is retired
at most once — a duplicate notification for the same key is a harmless miss
— and exactly one sample is appended to the store per retired key (so at
most one LatencySample is ever produced per key). -/
theorem correlation_at_most_once (st : ComprehensiveLatencyBenchmark.BenchState)
    (arrivals : List (ComprehensiveLatencyBenchmark.MeasurementSubscription × ℤ))
    (k : String)
    (h : (ComprehensiveLatencyBenchmark.pendingKeys st).Nodup) :
    (ComprehensiveLatencyBenchmark.processArrivals st arrivals).2.count k ≤ 1 ∧
    (ComprehensiveLatencyBenchmark.processArrivals st arrivals).1.samples.length
      = st.samples.length
        + (ComprehensiveLatencyBenchmark.processArrivals st arrivals).2.length :=
  ⟨ProofsBench.processArrivals_count arrivals st k h,
   ProofsBench.processArrivals_samples_len arrivals st⟩

/-- C2 witness: one pending key "k1", the same matching arrival delivered
twice; the key is retired at most once and the store grows exactly by the
number of retired keys. -/
theorem correlation_at_most_once_witness :
    (ComprehensiveLatencyBenchmark.processArrivals stW [(mW, 30), (mW, 40)]).2.count "k1" ≤ 1 ∧
    (ComprehensiveLatencyBenchmark.processArrivals stW [(mW, 30), (mW, 40)]).1.samples.length
      = stW.samples.length
        + (ComprehensiveLatencyBenchmark.processArrivals stW [(mW, 30), (mW, 40)]).2.length :=
  correlation_at_most_once stW [(mW, 30), (mW, 40)] "k1" (by decide)

/-- C6: the sample store never evicts — over any delivered arrival sequence
the prior store is preserved as an initial segment (append-only growth) —
and an arrival whose correlation retires a key and brings the store to the
configured cap stops the benchmark early: the generation timer is cancelled
and the SSE subscription is unsubscribed. -/
theorem sample_cap_stop (st : ComprehensiveLatencyBenchmark.BenchState)
    (arrivals : List (ComprehensiveLatencyBenchmark.MeasurementSubscription × ℤ))
    (m : ComprehensiveLatencyBenchmark.MeasurementSubscription) (r : ℤ)
    (hcons : (ComprehensiveLatencyBenchmark.handleArrivalK st m r).2.isSome = true)
    (hcap : st.maxLatencySamples
      ≤ (ComprehensiveLatencyBenchmark.handleArrivalK st m r).1.samples.length) :
    (∃ t, (ComprehensiveLatencyBenchmark.processArrivals st arrivals).1.samples
      = st.samples ++ t) ∧
    (ComprehensiveLatencyBenchmark.handleArrivalK st m r).1.eventGenerationTimer = false ∧
    (ComprehensiveLatencyBenchmark.handleArrivalK st m r).1.sseSubscription = false := by
  refine ⟨ProofsBench.processArrivals_samples_ext arrivals st, ?_⟩
  rcases ProofsBench.handleArrivalK_spec st m r with heq | ⟨k, s, hc, _, _, hsam, _, hstop, _⟩
  · rw [heq] at hcons
    simp at hcons
  · apply hstop
    rw [hsam] at hcap
    simp only [List.length_append, List.length_cons, List.length_nil] at hcap
    omega

/-- C6 witness: cap 1, one pending key, a matching arrival: the sample store
grew append-only and the benchmark shut down both resources at the cap. -/
theorem sample_cap_stop_witness :
    (∃ t, (ComprehensiveLatencyBenchmark.processArrivals stC [(mW, 20)]).1.samples
      = stC.samples ++ t) ∧
    (ComprehensiveLatencyBenchmark.handleArrivalK stC mW 20).1.eventGenerationTimer = false ∧
    (ComprehensiveLatencyBenchmark.handleArrivalK stC mW 20).1.sseSubscription = false :=
  sample_cap_stop stC [(mW, 20)] mW 20 (by decide) (by decide)

/-- C7: stopping the benchmark is idempotent: a second `stopBenchmark` on
the same run is the identity; on a running benchmark the first call cancels
the generation timer exactly once and unsubscribes the SSE stream exactly
once, the second call adds no teardown side effects (the ghost invocation
counters stay at one), and no further samples are appended after the first
stop returns, whatever arrivals the transport still delivers. -/
theorem stop_idempotent_no_duplicate (st : ComprehensiveLatencyBenchmark.BenchState)
    (arrivals : List (ComprehensiveLatencyBenchmark.MeasurementSubscription × ℤ))
    (ht : st.eventGenerationTimer = true) (hs : st.sseSubscription = true) :
    ComprehensiveLatencyBenchmark.stopBenchmark
        (ComprehensiveLatencyBenchmark.stopBenchmark st)
      = ComprehensiveLatencyBenchmark.stopBenchmark st ∧
    (ComprehensiveLatencyBenchmark.stopBenchmark st).timerClearCount
      = st.timerClearCount + 1 ∧
    (ComprehensiveLatencyBenchmark.stopBenchmark st).unsubscribeCount
      = st.unsubscribeCount + 1 ∧
    (ComprehensiveLatencyBenchmark.stopBenchmark
        (ComprehensiveLatencyBenchmark.stopBenchmark st)).timerClearCount
      = st.timerClearCount + 1 ∧
    (ComprehensiveLatencyBenchmark.stopBenchmark
        (ComprehensiveLatencyBenchmark.stopBenchmark st)).unsubscribeCount
      = st.unsubscribeCount + 1 ∧
    (ComprehensiveLatencyBenchmark.processArrivals
        (ComprehensiveLatencyBenchmark.stopBenchmark st) arrivals).1.samples
      = (ComprehensiveLatencyBenchmark.stopBenchmark st).samples := by
  have hsame := ProofsBench.stopBenchmark_stopBenchmark st
  have hclear : (ComprehensiveLatencyBenchmark.stopBenchmark st).timerClearCount
      = st.timerClearCount + 1 := by
    unfold ComprehensiveLatencyBenchmark.stopBenchmark
      ComprehensiveLatencyBenchmark.stopEventGeneration
    rw [ht]
    simp [hs]
  have hunsub : (ComprehensiveLatencyBenchmark.stopBenchmark st).unsubscribeCount
      = st.unsubscribeCount + 1 := by
    unfold ComprehensiveLatencyBenchmark.stopBenchmark
      ComprehensiveLatencyBenchmark.stopEventGeneration
    rw [ht]
    simp [hs]
  have hnos := ProofsBench.processArrivals_unsubscribed arrivals
    (ComprehensiveLatencyBenchmark.stopBenchmark st)
    (ProofsBench.stopBenchmark_sse st)
  refine ⟨hsame, hclear, hunsub, ?_, ?_, ?_⟩
  · rw [hsame, hclear]
  · rw [hsame, hunsub]
  · rw [hnos]

/-- C7 witness: a running benchmark (timer live, subscription live) with one
pending key; the instantiation of the idempotent-stop theorem at it. -/
theorem stop_idempotent_no_duplicate_witness :
    ComprehensiveLatencyBenchmark.stopBenchmark
        (ComprehensiveLatencyBenchmark.stopBenchmark stW)
      = ComprehensiveLatencyBenchmark.stopBenchmark stW ∧
    (ComprehensiveLatencyBenchmark.stopBenchmark stW).timerClearCount
      = stW.timerClearCount + 1 ∧
    (ComprehensiveLatencyBenchmark.stopBenchmark stW).unsubscribeCount
      = stW.unsubscribeCount + 1 ∧
    (ComprehensiveLatencyBenchmark.stopBenchmark
        (ComprehensiveLatencyBenchmark.stopBenchmark stW)).timerClearCount
      = stW.timerClearCount + 1 ∧
    (ComprehensiveLatencyBenchmark.stopBenchmark
        (ComprehensiveLatencyBenchmark.stopBenchmark stW)).unsubscribeCount
      = stW.unsubscribeCount + 1 ∧
    (ComprehensiveLatencyBenchmark.processArrivals
        (ComprehensiveLatencyBenchmark.stopBenchmark stW) [(mW, 30)]).1.samples
      = (ComprehensiveLatencyBenchmark.stopBenchmark stW).samples :=
  stop_idempotent_no_duplicate stW [(mW, 30)] rfl rfl

namespace ProofsC10

open RealtimeSSESubscriber

theorem handleEvent_count (m : LatencyMetrics) (sid : Option String) (g r : ℤ) :
    (handleEvent none m sid g r).count = m.count + 1 := by
  unfold handleEvent
  rw [if_neg (by simp)]
  split <;> rfl

theorem handleEvent_sum (m : LatencyMetrics) (sid : Option String) (g r : ℤ) :
    (handleEvent none m sid g r).sum = m.sum + ((r - g : ℤ) : ℚ) := by
  unfold handleEvent
  rw [if_neg (by simp)]
  split <;> rfl

theorem handleEvent_min (m : LatencyMetrics) (sid : Option String) (g r : ℤ) :
    (handleEvent none m sid g r).min
      = some (match m.min with
              | none => ((r - g : ℤ) : ℚ)
              | some v => Min.min v ((r - g : ℤ) : ℚ)) := by
  unfold handleEvent
  rw [if_neg (by simp)]
  split <;> rfl

theorem handleEvent_max (m : LatencyMetrics) (sid : Option String) (g r : ℤ) :
    (handleEvent none m sid g r).max
      = some (match m.max with
              | none => ((r - g : ℤ) : ℚ)
              | some v => Max.max v ((r - g : ℤ) : ℚ)) := by
  unfold handleEvent
  rw [if_neg (by simp)]
  split <;> rfl

theorem handleEvent_values (m : LatencyMetrics) (sid : Option String) (g r : ℤ)
    (h : m.values.length ≤ 1000) :
    (handleEvent none m sid g r).values
      = (m.values ++ [((r - g : ℤ) : ℚ)]).drop
          ((m.values ++ [((r - g : ℤ) : ℚ)]).length - 1000) ∧
    (handleEvent none m sid g r).values.length ≤ 1000 := by
  unfold handleEvent
  rw [if_neg (by simp)]
  split
  · rename_i hlen
    simp only [pushValue, List.length_append, List.length_cons, List.length_nil] at hlen
    have h1 : (m.values ++ [((r - g : ℤ) : ℚ)]).length - 1000 = 1 := by
      simp only [List.length_append, List.length_cons, List.length_nil]
      omega
    rw [h1]
    refine ⟨rfl, ?_⟩
    simp only [pushValue, List.length_drop, List.length_append, List.length_cons,
      List.length_nil]
    omega
  · rename_i hlen
    simp only [pushValue, List.length_append, List.length_cons, List.length_nil] at hlen
    have h1 : (m.values ++ [((r - g : ℤ) : ℚ)]).length - 1000 = 0 := by
      simp only [List.length_append, List.length_cons, List.length_nil]
      omega
    rw [h1]
    refine ⟨rfl, ?_⟩
    simp only [pushValue, List.length_append, List.length_cons, List.length_nil]
    omega

theorem latenciesOf_cons (e : Option String × ℤ × ℤ) (rest : List (Option String × ℤ × ℤ)) :
    latenciesOf (e :: rest) = ((e.2.2 - e.2.1 : ℤ) : ℚ) :: latenciesOf rest := rfl

theorem processEvents_count (es : List (Option String × ℤ × ℤ)) :
    ∀ m : LatencyMetrics, (processEvents m es).count = m.count + es.length := by
  induction es with
  | nil => intro m; simp [processEvents]
  | cons e rest ih =>
    intro m
    simp only [processEvents, List.length_cons]
    rw [ih, handleEvent_count]
    omega

theorem processEvents_sum (es : List (Option String × ℤ × ℤ)) :
    ∀ m : LatencyMetrics, (processEvents m es).sum = m.sum + (latenciesOf es).sum := by
  induction es with
  | nil => intro m; simp [processEvents, latenciesOf]
  | cons e rest ih =>
    intro m
    simp only [processEvents, latenciesOf_cons, List.sum_cons]
    rw [ih, handleEvent_sum]
    ring

theorem processEvents_min_some (es : List (Option String × ℤ × ℤ)) :
    ∀ (m : LatencyMetrics) (v : ℚ), m.min = some v →
      (processEvents m es).min = some ((latenciesOf es).foldl Min.min v) := by
  induction es with
  | nil => intro m v h; simpa [processEvents, latenciesOf] using h
  | cons e rest ih =>
    intro m v h
    simp only [processEvents, latenciesOf_cons, List.foldl_cons]
    exact ih _ _ (by rw [handleEvent_min, h])

theorem processEvents_min_none (es : List (Option String × ℤ × ℤ)) :
    ∀ m : LatencyMetrics, m.min = none →
      (processEvents m es).min = (latenciesOf es).min? := by
  induction es with
  | nil => intro m h; simpa [processEvents, latenciesOf] using h
  | cons e rest ih =>
    intro m h
    simp only [processEvents, latenciesOf_cons]
    exact processEvents_min_some rest _ _ (by rw [handleEvent_min, h])

theorem processEvents_max_some (es : List (Option String × ℤ × ℤ)) :
    ∀ (m : LatencyMetrics) (v : ℚ), m.max = some v →
      (processEvents m es).max = some ((latenciesOf es).foldl Max.max v) := by
  induction es with
  | nil => intro m v h; simpa [processEvents, latenciesOf] using h
  | cons e rest ih =>
    intro m v h
    simp only [processEvents, latenciesOf_cons, List.foldl_cons]
    exact ih _ _ (by rw [handleEvent_max, h])

theorem processEvents_max_none (es : List (Option String × ℤ × ℤ)) :
    ∀ m : LatencyMetrics, m.max = none →
      (processEvents m es).max = (latenciesOf es).max? := by
  induction es with
  | nil => intro m h; simpa [processEvents, latenciesOf] using h
  | cons e rest ih =>
    intro m h
    simp only [processEvents, latenciesOf_cons]
    exact processEvents_max_some rest _ _ (by rw [handleEvent_max, h])

theorem drop_window (n : ℕ) (A B : List ℚ) :
    (A.drop (A.length - n) ++ B).drop ((A.drop (A.length - n) ++ B).length - n)
      = (A ++ B).drop ((A ++ B).length - n) := by
  by_cases hA : A.length ≤ n
  · have h0 : A.length - n = 0 := by omega
    rw [h0]
    simp
  · have hle : A.length - n ≤ A.length := Nat.sub_le _ _
    rw [← List.drop_append_of_le_length hle, List.drop_drop]
    congr 1
    simp only [List.length_drop, List.length_append]
    omega

theorem processEvents_values (es : List (Option String × ℤ × ℤ)) :
    ∀ m : LatencyMetrics, m.values.length ≤ 1000 →
      (processEvents m es).values
        = (m.values ++ latenciesOf es).drop ((m.values ++ latenciesOf es).length - 1000) ∧
      (processEvents m es).values.length ≤ 1000 := by
  induction es with
  | nil =>
    intro m h
    have h0 : (m.values ++ latenciesOf []).length - 1000 = 0 := by
      simp only [latenciesOf, List.map_nil, List.append_nil]
      omega
    rw [h0]
    constructor
    · simp [processEvents, latenciesOf]
    · simpa [processEvents] using h
  | cons e rest ih =>
    intro m h
    obtain ⟨hv, hb⟩ := handleEvent_values m e.1 e.2.1 e.2.2 h
    obtain ⟨hv', hb'⟩ := ih (handleEvent none m e.1 e.2.1 e.2.2) hb
    simp only [processEvents]
    refine ⟨?_, hb'⟩
    rw [hv', hv]
    have hassoc : m.values ++ latenciesOf (e :: rest)
        = (m.values ++ [((e.2.2 - e.2.1 : ℤ) : ℚ)]) ++ latenciesOf rest := by
      rw [latenciesOf_cons]
      simp
    rw [hassoc]
    exact drop_window 1000 (m.values ++ [((e.2.2 - e.2.1 : ℤ) : ℚ)]) (latenciesOf rest)

end ProofsC10

/-- C10: the subscriber's stored latency list is capped at the 1000 most
recent values (the oldest is shifted off whenever a push would exceed 1000),
so after more than 1000 events the report's p50/p95/p99 are computed over
exactly the last 1000 latencies, while the same report's event count,
average, min and max cover every event received since the subscriber
started. -/
theorem report_window_vs_totals (es : List (Option String × ℤ × ℤ))
    (h : 1000 < es.length) :
    (RealtimeSSESubscriber.processEvents RealtimeSSESubscriber.initialMetrics es).count
      = es.length ∧
    (RealtimeSSESubscriber.processEvents RealtimeSSESubscriber.initialMetrics es).sum
      = (RealtimeSSESubscriber.latenciesOf es).sum ∧
    (RealtimeSSESubscriber.processEvents RealtimeSSESubscriber.initialMetrics es).min
      = (RealtimeSSESubscriber.latenciesOf es).min? ∧
    (RealtimeSSESubscriber.processEvents RealtimeSSESubscriber.initialMetrics es).max
      = (RealtimeSSESubscriber.latenciesOf es).max? ∧
    (RealtimeSSESubscriber.processEvents RealtimeSSESubscriber.initialMetrics es).values
      = (RealtimeSSESubscriber.latenciesOf es).drop
          ((RealtimeSSESubscriber.latenciesOf es).length - 1000) ∧
    (RealtimeSSESubscriber.processEvents RealtimeSSESubscriber.initialMetrics es).values.length
      = 1000 ∧
    RealtimeSSESubscriber.printReport
        (RealtimeSSESubscriber.processEvents RealtimeSSESubscriber.initialMetrics es)
      = some
        { count := es.length
          avg := (RealtimeSSESubscriber.latenciesOf es).sum / (es.length : ℚ)
          min := (RealtimeSSESubscriber.latenciesOf es).min?
          max := (RealtimeSSESubscriber.latenciesOf es).max?
          p50 := RealtimeSSESubscriber.percentile
            (sortAsc ((RealtimeSSESubscriber.latenciesOf es).drop
              ((RealtimeSSESubscriber.latenciesOf es).length - 1000))) 50
          p95 := RealtimeSSESubscriber.percentile
            (sortAsc ((RealtimeSSESubscriber.latenciesOf es).drop
              ((RealtimeSSESubscriber.latenciesOf es).length - 1000))) 95
          p99 := RealtimeSSESubscriber.percentile
            (sortAsc ((RealtimeSSESubscriber.latenciesOf es).drop
              ((RealtimeSSESubscriber.latenciesOf es).length - 1000))) 99 } := by
  have hlatlen : (RealtimeSSESubscriber.latenciesOf es).length = es.length := by
    simp [RealtimeSSESubscriber.latenciesOf]
  have hcount :
      (RealtimeSSESubscriber.processEvents RealtimeSSESubscriber.initialMetrics es).count
        = es.length := by
    rw [ProofsC10.processEvents_count]
    simp [RealtimeSSESubscriber.initialMetrics]
  have hsum :
      (RealtimeSSESubscriber.processEvents RealtimeSSESubscriber.initialMetrics es).sum
        = (RealtimeSSESubscriber.latenciesOf es).sum := by
    rw [ProofsC10.processEvents_sum]
    show (0 : ℚ) + _ = _
    ring
  have hmin :
      (RealtimeSSESubscriber.processEvents RealtimeSSESubscriber.initialMetrics es).min
        = (RealtimeSSESubscriber.latenciesOf es).min? :=
    ProofsC10.processEvents_min_none es RealtimeSSESubscriber.initialMetrics rfl
  have hmax :
      (RealtimeSSESubscriber.processEvents RealtimeSSESubscriber.initialMetrics es).max
        = (RealtimeSSESubscriber.latenciesOf es).max? :=
    ProofsC10.processEvents_max_none es RealtimeSSESubscriber.initialMetrics rfl
  have hvals :
      (RealtimeSSESubscriber.processEvents RealtimeSSESubscriber.initialMetrics es).values
        = (RealtimeSSESubscriber.latenciesOf es).drop
            ((RealtimeSSESubscriber.latenciesOf es).length - 1000) := by
    have := (ProofsC10.processEvents_values es RealtimeSSESubscriber.initialMetrics
      (by simp [RealtimeSSESubscriber.initialMetrics])).1
    simpa [RealtimeSSESubscriber.initialMetrics] using this
  have hvlen :
      (RealtimeSSESubscriber.processEvents
        RealtimeSSESubscriber.initialMetrics es).values.length = 1000 := by
    rw [hvals]
    simp only [List.length_drop, hlatlen]
    omega
  refine ⟨hcount, hsum, hmin, hmax, hvals, hvlen, ?_⟩
  unfold RealtimeSSESubscriber.printReport
  rw [if_neg (by rw [hcount]; omega)]
  rw [hcount, hsum, hmin, hmax, hvals]

/-- C10 witness: the instantiation of the window theorem at a concrete trace
of 1001 events. -/
theorem report_window_vs_totals_witness :
    (RealtimeSSESubscriber.processEvents RealtimeSSESubscriber.initialMetrics esW).count
      = esW.length ∧
    (RealtimeSSESubscriber.processEvents RealtimeSSESubscriber.initialMetrics esW).sum
      = (RealtimeSSESubscriber.latenciesOf esW).sum ∧
    (RealtimeSSESubscriber.processEvents RealtimeSSESubscriber.initialMetrics esW).min
      = (RealtimeSSESubscriber.latenciesOf esW).min? ∧
    (RealtimeSSESubscriber.processEvents RealtimeSSESubscriber.initialMetrics esW).max
      = (RealtimeSSESubscriber.latenciesOf esW).max? ∧
    (RealtimeSSESubscriber.processEvents RealtimeSSESubscriber.initialMetrics esW).values
      = (RealtimeSSESubscriber.latenciesOf esW).drop
          ((RealtimeSSESubscriber.latenciesOf esW).length - 1000) ∧
    (RealtimeSSESubscriber.processEvents
        RealtimeSSESubscriber.initialMetrics esW).values.length = 1000 ∧
    RealtimeSSESubscriber.printReport
        (RealtimeSSESubscriber.processEvents RealtimeSSESubscriber.initialMetrics esW)
      = some
        { count := esW.length
          avg := (RealtimeSSESubscriber.latenciesOf esW).sum / (esW.length : ℚ)
          min := (RealtimeSSESubscriber.latenciesOf esW).min?
          max := (RealtimeSSESubscriber.latenciesOf esW).max?
          p50 := RealtimeSSESubscriber.percentile
            (sortAsc ((RealtimeSSESubscriber.latenciesOf esW).drop
              ((RealtimeSSESubscriber.latenciesOf esW).length - 1000))) 50
          p95 := RealtimeSSESubscriber.percentile
            (sortAsc ((RealtimeSSESubscriber.latenciesOf esW).drop
              ((RealtimeSSESubscriber.latenciesOf esW).length - 1000))) 95
          p99 := RealtimeSSESubscriber.percentile
            (sortAsc ((RealtimeSSESubscriber.latenciesOf esW).drop
              ((RealtimeSSESubscriber.latenciesOf esW).length - 1000))) 99 } :=
  report_window_vs_totals esW (by rw [esW, List.length_replicate]; omega)
